import Mathlib

/-!
# Verification of the mcp-sse-proxy transport-translation core

A shallow embedding, in Lean 4, of the frame handling of the
`charliek/mcp-sse-proxy` repository, together with theorems settling the
frozen claims about its specification.

The embedding follows the TypeScript source:

* `src/strategies/StreamableHttpOutputStrategy.ts` — forwarding a frontend
  frame to a streamable-HTTP upstream and decoding the NDJSON response
  stream chunk by chunk (`handleMessage`, `sendToStreamableEndpoint`);
* `src/strategies/SSEOutputStrategy.ts` — forwarding to an SSE upstream via
  the MCP SDK client (`handleMessage`);
* `src/strategies/SSEInputStrategy.ts` — the SSE frontend listener
  (`setupRoutes`, `handleConnection`, `sendResponse`);
* `src/strategies/StreamableHttpInputStrategy.ts` — the streamable-HTTP
  frontend listener (`setupRoutes`, `handleConnection`, `sendResponse`).

JavaScript objects are modelled by a first-order JSON value type; the
platform primitives `JSON.parse`, `String.prototype.split`,
`String.prototype.trim`, `Date.now().toString()` and object destructuring
are modelled by executable Lean functions.  JSON numbers are modelled as
integers (no frame relevant to the claims carries a fractional number).
Asynchronous callbacks (`on('data')`, `on('error')`, `await`/catch) are
modelled by passing the outcome of the awaited operation explicitly and
recording the externally visible actions of a handler as a list of events,
in program order.
-/

/-- A JSON value as produced by `JSON.parse`.  Object fields keep their
order of appearance, as JavaScript objects do.  Numbers are modelled as
integers. -/
inductive Json : Type where
  | null : Json
  | bool (b : Bool) : Json
  | num (n : Int) : Json
  | str (s : String) : Json
  | arr (elems : List Json) : Json
  | obj (fields : List (String × Json)) : Json

/-- Association-list lookup, first match wins: the model of reading a
property of a JavaScript object (`undefined`, i.e. `none`, when absent). -/
def assocLookup {β : Type} (k : String) : List (String × β) → Option β
  | [] => none
  | (k', v) :: rest => if k = k' then some v else assocLookup k rest

/-- Reading a property of a JSON value: `j[k]` in JavaScript.  Yields
`none` (undefined) on non-objects and absent keys. -/
def Json.lookup (j : Json) (k : String) : Option Json :=
  match j with
  | .obj fields => assocLookup k fields
  | _ => none

/-- A key/value pair that is present only when the value is defined: the
model of a JavaScript object literal field whose value may be `undefined`
(such fields are dropped by `JSON.stringify` and by the wire encoding). -/
def optField (k : String) (v : Option Json) : List (String × Json) :=
  match v with
  | some j => [(k, j)]
  | none => []

/-- JavaScript `s || d` for an optional string: the default applies when
the string is absent or empty (empty strings are falsy). -/
def jsOr (s : Option String) (d : String) : String :=
  match s with
  | some m => if m = "" then d else m
  | none => d

/-! ## A model of `JSON.parse`

The upstream NDJSON stream is decoded line by line with `JSON.parse`
(`StreamableHttpOutputStrategy.handleMessage`).  The parser below models
`JSON.parse` as an executable function on character lists: values are
objects, arrays, strings with the standard escapes, integers, booleans and
`null`.  Fractional and exponent-bearing numbers are outside the model (no
frame relevant to the claims carries one) and make the parser fail.
Recursion is by explicit fuel so that the function is structurally
recursive and evaluable by the kernel. -/

/-- The opening-brace character of JSON object syntax. -/
def lbrace : Char := Char.ofNat 123

/-- The closing-brace character of JSON object syntax. -/
def rbrace : Char := Char.ofNat 125

/-- JavaScript whitespace, as relevant to `String.prototype.trim` and to
the whitespace JSON tolerates between tokens. -/
def isJsWs (c : Char) : Bool :=
  c == ' ' || c == '\t' || c == '\n' || c == '\r'

/-- Drop leading whitespace. -/
def skipWs : List Char → List Char
  | [] => []
  | c :: rest => if isJsWs c then skipWs rest else c :: rest

/-- Value of a hexadecimal digit. -/
def hexVal (c : Char) : Option Nat :=
  if c.isDigit then some (c.toNat - 48)
  else if 'a' ≤ c && c ≤ 'f' then some (c.toNat - 87)
  else if 'A' ≤ c && c ≤ 'F' then some (c.toNat - 55)
  else none

/-- Parse the body of a JSON string after the opening quote, handling the
standard escapes; returns the string and the remaining input. -/
def parseStringBody : Nat → List Char → List Char → Option (String × List Char)
  | 0, _, _ => none
  | fuel + 1, acc, s =>
    match s with
    | [] => none
    | c :: rest =>
      if c == '"' then some (⟨acc.reverse⟩, rest)
      else if c == '\\' then
        match rest with
        | [] => none
        | e :: rest2 =>
          if e == '"' then parseStringBody fuel ('"' :: acc) rest2
          else if e == '\\' then parseStringBody fuel ('\\' :: acc) rest2
          else if e == '/' then parseStringBody fuel ('/' :: acc) rest2
          else if e == 'n' then parseStringBody fuel ('\n' :: acc) rest2
          else if e == 't' then parseStringBody fuel ('\t' :: acc) rest2
          else if e == 'r' then parseStringBody fuel ('\r' :: acc) rest2
          else if e == 'b' then parseStringBody fuel (Char.ofNat 8 :: acc) rest2
          else if e == 'f' then parseStringBody fuel (Char.ofNat 12 :: acc) rest2
          else if e == 'u' then
            match rest2 with
            | h1 :: h2 :: h3 :: h4 :: rest3 =>
              match hexVal h1, hexVal h2, hexVal h3, hexVal h4 with
              | some a, some b, some c3, some d =>
                  parseStringBody fuel (Char.ofNat (((a * 16 + b) * 16 + c3) * 16 + d) :: acc) rest3
              | _, _, _, _ => none
            | _ => none
          else none
      else parseStringBody fuel (c :: acc) rest

/-- Parse a maximal run of decimal digits, accumulating their value. -/
def parseDigits : Nat → Nat → List Char → Nat × List Char
  | 0, acc, s => (acc, s)
  | fuel + 1, acc, s =>
    match s with
    | [] => (acc, [])
    | c :: rest =>
      if c.isDigit then parseDigits fuel (acc * 10 + (c.toNat - 48)) rest
      else (acc, s)

/-- Parse a JSON integer (optional minus sign, then digits).  A following
`.`, `e` or `E` marks a non-integer number, which is outside the model. -/
def parseNum (s : List Char) : Option (Json × List Char) :=
  let signSplit : Bool × List Char :=
    match s with
    | '-' :: rest => (true, rest)
    | _ => (false, s)
  match signSplit with
  | (neg, s1) =>
    match s1 with
    | [] => none
    | c :: _ =>
      if c.isDigit then
        match parseDigits s1.length 0 s1 with
        | (n, rest) =>
          let value : Json := .num (if neg then -(n : Int) else (n : Int))
          match rest with
          | [] => some (value, [])
          | r :: _ =>
            if r == '.' || r == 'e' || r == 'E' then none else some (value, rest)
      else none

mutual

/-- Parse one JSON value, returning it with the remaining input. -/
def parseVal : Nat → List Char → Option (Json × List Char)
  | 0, _ => none
  | fuel + 1, s =>
    match skipWs s with
    | [] => none
    | c :: rest =>
      if c == '"' then
        match parseStringBody (fuel + 1) [] rest with
        | some (str, r) => some (.str str, r)
        | none => none
      else if c == lbrace then
        match skipWs rest with
        | [] => none
        | c2 :: r2 =>
          if c2 == rbrace then some (.obj [], r2)
          else
            match parseFields fuel (c2 :: r2) with
            | some (fs, r) => some (.obj fs, r)
            | none => none
      else if c == '[' then
        match skipWs rest with
        | [] => none
        | c2 :: r2 =>
          if c2 == ']' then some (.arr [], r2)
          else
            match parseElems fuel (c2 :: r2) with
            | some (vs, r) => some (.arr vs, r)
            | none => none
      else if c == 't' then
        match rest with
        | 'r' :: 'u' :: 'e' :: r => some (.bool true, r)
        | _ => none
      else if c == 'f' then
        match rest with
        | 'a' :: 'l' :: 's' :: 'e' :: r => some (.bool false, r)
        | _ => none
      else if c == 'n' then
        match rest with
        | 'u' :: 'l' :: 'l' :: r => some (.null, r)
        | _ => none
      else if c == '-' || c.isDigit then parseNum (c :: rest)
      else none

/-- Parse the fields of a JSON object after the opening brace, the object
being known non-empty; consumes the closing brace. -/
def parseFields : Nat → List Char → Option (List (String × Json) × List Char)
  | 0, _ => none
  | fuel + 1, s =>
    match skipWs s with
    | [] => none
    | c :: rest =>
      if c == '"' then
        match parseStringBody (fuel + 1) [] rest with
        | some (k, r1) =>
          match skipWs r1 with
          | ':' :: r2 =>
            match parseVal fuel r2 with
            | some (v, r3) =>
              match skipWs r3 with
              | [] => none
              | c2 :: r4 =>
                if c2 == ',' then
                  match parseFields fuel r4 with
                  | some (fs, r5) => some ((k, v) :: fs, r5)
                  | none => none
                else if c2 == rbrace then some ([(k, v)], r4)
                else none
            | none => none
          | _ => none
        | none => none
      else none

/-- Parse the elements of a JSON array after the opening bracket, the
array being known non-empty; consumes the closing bracket. -/
def parseElems : Nat → List Char → Option (List Json × List Char)
  | 0, _ => none
  | fuel + 1, s =>
    match parseVal fuel s with
    | some (v, r1) =>
      match skipWs r1 with
      | ',' :: r2 =>
        match parseElems fuel r2 with
        | some (vs, r) => some (v :: vs, r)
        | none => none
      | ']' :: r2 => some ([v], r2)
      | _ => none
    | none => none

end

/-- The model of `JSON.parse`: parse one value and require only
whitespace to follow. -/
def parseJson (s : List Char) : Option Json :=
  match parseVal (2 * s.length + 2) s with
  | some (v, rest) =>
    match skipWs rest with
    | [] => some v
    | _ :: _ => none
  | none => none

/-! ## NDJSON chunk decoding

`StreamableHttpOutputStrategy.handleMessage` installs a `data` listener on
the upstream response stream.  For each chunk it runs

```
const lines = chunk.toString().split('\n').filter(line => line.trim());
for (const line of lines) { try { JSON.parse(line) ... } catch { skip } }
```

Each chunk is processed independently; no text is carried from one chunk
to the next.  `decodeChunk` models the treatment of one chunk and
`decodeChunks` the frames recovered over the whole stream. -/

/-- The model of `String.prototype.split('\n')`: split into segments at
every newline, keeping empty segments (`"".split('\n')` is `[""]`,
`"a\n".split('\n')` is `["a", ""]`). -/
def splitLines : List Char → List (List Char)
  | [] => [[]]
  | c :: rest =>
    if c = '\n' then [] :: splitLines rest
    else
      match splitLines rest with
      | [] => [[c]]
      | l :: ls => (c :: l) :: ls

/-- The filter `line => line.trim()`: a line is kept when trimming leaves
it non-empty, i.e. when it holds a non-whitespace character. -/
def jsLineKept (l : List Char) : Bool :=
  l.any (fun c => !(isJsWs c))

/-- Frames recovered from one chunk: split at newlines, drop blank lines,
parse each remaining line, skip parse failures. -/
def decodeChunk (chunk : List Char) : List Json :=
  ((splitLines chunk).filter jsLineKept).filterMap parseJson

/-- Frames recovered from a chunked stream: every chunk is decoded on its
own, in arrival order. -/
def decodeChunks (chunks : List (List Char)) : List Json :=
  chunks.flatMap decodeChunk

/-- A chunk ends at a record boundary when its last character is the
newline that terminates an NDJSON record. -/
def endsWithNewline : List Char → Bool
  | [] => false
  | [c] => c = '\n'
  | _ :: c :: rest => endsWithNewline (c :: rest)

/-! ## Session-id minting

`SSEInputStrategy.handleConnection` mints `Date.now().toString()`;
`StreamableHttpInputStrategy.handleConnection` mints
`` `http-${Date.now()}-${Math.random().toString(36).substr(2, 9)}` ``.
`natToString` models the decimal rendering of the millisecond timestamp;
the random suffix is an arbitrary string parameter. -/

/-- The character of a decimal digit. -/
def digitChar (d : Nat) : Char := Char.ofNat (48 + d)

/-- Decimal digits of a positive number, most significant first, by
explicit fuel (structural recursion, kernel-evaluable). -/
def natToStringAux : Nat → Nat → List Char
  | 0, _ => []
  | fuel + 1, n =>
    if n = 0 then [] else natToStringAux fuel (n / 10) ++ [digitChar (n % 10)]

/-- The model of `Number.prototype.toString` on a natural number. -/
def natToString (n : Nat) : String :=
  if n = 0 then "0" else ⟨natToStringAux (n + 1) n⟩

/-- The session id minted for an SSE frontend connection:
`Date.now().toString()`. -/
def mintSseSessionId (nowMs : Nat) : String := natToString nowMs

/-- The session id minted for a streamable-HTTP frontend connection:
timestamp plus random base-36 suffix. -/
def mintHttpSessionId (nowMs : Nat) (rand : String) : String :=
  "http-" ++ natToString nowMs ++ "-" ++ rand

/-! ## Frames built by the proxy

`StreamableHttpOutputStrategy.handleMessage` destructures the incoming
frame as `const { jsonrpc, method, params, id } = request` and
`sendToStreamableEndpoint` posts the object literal
`{ jsonrpc: '2.0', method, params, id }`; a field whose destructured value
is `undefined` is absent from the serialized body.  The error frames are
the object literals
`{ jsonrpc: '2.0', id, error: { code, message, data } }` built in the
`catch` blocks and stream-`error` handlers. -/

/-- The body posted upstream by `sendToStreamableEndpoint`. -/
def buildForwardRequest (method params id : Option Json) : Json :=
  .obj ([("jsonrpc", .str "2.0")] ++ optField "method" method ++
    optField "params" params ++ optField "id" id)

/-- The frame actually forwarded upstream for a received frontend frame:
destructure `method`, `params`, `id` and rebuild. -/
def forwardedFrame (req : Json) : Json :=
  buildForwardRequest (req.lookup "method") (req.lookup "params") (req.lookup "id")

/-- A synthetic JSON-RPC error frame
`{ jsonrpc: '2.0', id, error: { code, message, data } }`; the `id` and
`data` keys are dropped when their values are undefined. -/
def errorFrame (id : Option Json) (code : Int) (message : String)
    (stack : Option String) : Json :=
  .obj ([("jsonrpc", .str "2.0")] ++ optField "id" id ++
    [("error", .obj ([("code", .num code), ("message", .str message)] ++
      optField "data" (stack.map .str)))])

/-! ## Streamable-HTTP upstream (`StreamableHttpOutputStrategy`)

`handleMessage` posts the rebuilt frame and then reacts to the response
stream: every chunk's decoded frames are handed to
`sessionInfo.inputStrategy.sendResponse`; a stream `error` event or a
rejected `await` produces one synthetic `-32603` error frame instead. -/

/-- Externally visible actions of the streamable-HTTP output strategy. -/
inductive UpstreamHttpEvent : Type where
  | post (body : Json)
  | reply (frame : Json)

/-- Outcome of the upstream POST: the `await` rejects with a network
error, or a response stream arrives as chunks, possibly followed by a
stream `error` event (message and stack of the error). -/
inductive StreamOutcome : Type where
  | sendFailure (message : Option String) (stack : Option String)
  | stream (chunks : List (List Char))
      (streamError : Option (Option String × Option String))

/-- `StreamableHttpOutputStrategy.handleMessage`, as the list of actions
it performs, in program order. -/
def streamableOutHandleMessage (req : Json) (outcome : StreamOutcome) :
    List UpstreamHttpEvent :=
  let method := req.lookup "method"
  let params := req.lookup "params"
  let id := req.lookup "id"
  match outcome with
  | .sendFailure m st =>
    [.post (buildForwardRequest method params id),
     .reply (errorFrame id (-32603) (jsOr m "Internal error") st)]
  | .stream chunks err =>
    .post (buildForwardRequest method params id) ::
    ((decodeChunks chunks).map .reply ++
      match err with
      | some (m, st) => [.reply (errorFrame id (-32603) (jsOr m "Internal error") st)]
      | none => [])

/-! ## SSE upstream (`SSEOutputStrategy`)

With an upstream client bound to the session, `handleMessage`
destructures `{ method, params, id }` and forwards: a frame whose `id` is
defined goes out as `client.request({ method, params }, schema)` and its
result is wrapped as `{ jsonrpc: '2.0', id, result }`; a frame without
`id` goes out as `client.notification({ method, params })`.  A rejection
of either call is caught and answered with a `-32603` error frame. -/

/-- Externally visible actions of the SSE output strategy. -/
inductive UpstreamSseEvent : Type where
  | request (method params : Option Json)
  | notification (method params : Option Json)
  | reply (frame : Json)

/-- Outcome of the awaited upstream SDK call. -/
inductive UpstreamCallOutcome : Type where
  | ok (result : Json)
  | fail (message : Option String) (stack : Option String)

/-- `SSEOutputStrategy.handleMessage` on a session with a bound upstream
client, as the list of actions it performs, in program order. -/
def sseOutHandleMessage (req : Json) (outcome : UpstreamCallOutcome) :
    List UpstreamSseEvent :=
  let method := req.lookup "method"
  let params := req.lookup "params"
  match req.lookup "id" with
  | some i =>
    .request method params ::
    (match outcome with
     | .ok res => [.reply (.obj [("jsonrpc", .str "2.0"), ("id", i), ("result", res)])]
     | .fail m st => [.reply (errorFrame (some i) (-32603) (jsOr m "Internal error") st)])
  | none =>
    .notification method params ::
    (match outcome with
     | .ok _ => []
     | .fail m st => [.reply (errorFrame none (-32603) (jsOr m "Internal error") st)])

/-! ## Streamable-HTTP frontend (`StreamableHttpInputStrategy`)

The POST route first runs `handleConnection`, which mints a session id
and writes the `200` status with the streaming headers, then hands
`req.body` to the output strategy; if that `await` rejects, it writes one
NDJSON-encoded `-32603` error frame and ends the body.  `sendResponse`
writes one NDJSON line per frame and ends the response as soon as the
written frame's `id` is defined. -/

/-- Externally visible actions on a streamable-HTTP frontend response. -/
inductive FrontendHttpEvent : Type where
  | writeHead (status : Nat) (headers : List (String × String))
  | handleMessage (body : Json)
  | writeFrameLine (frame : Json)
  | endResponse

/-- Headers set by `StreamableHttpInputStrategy.handleConnection`. -/
def streamableHeaders : List (String × String) :=
  [("Content-Type", "application/json"), ("Transfer-Encoding", "chunked"),
   ("Cache-Control", "no-cache"), ("X-Accel-Buffering", "no")]

/-- `StreamableHttpInputStrategy.sendResponse`: write the frame as one
NDJSON line, then end the response if `response.id !== undefined`. -/
def streamableSendResponse (frame : Json) : List FrontendHttpEvent :=
  .writeFrameLine frame ::
  (if (frame.lookup "id").isSome then [.endResponse] else [])

/-- The POST route of `StreamableHttpInputStrategy.setupRoutes`:
`handleConnection` (status and headers), then the hand-off of the body;
`messageFailure` is `none` when the awaited `handleMessage` resolves and
otherwise carries the rejection's message and stack. -/
def streamablePostRoute (body : Json)
    (messageFailure : Option (Option String × Option String)) :
    List FrontendHttpEvent :=
  .writeHead 200 streamableHeaders ::
  .handleMessage body ::
  (match messageFailure with
   | none => []
   | some (m, st) =>
     [.writeFrameLine (errorFrame (body.lookup "id") (-32603) (jsOr m "Internal error") st),
      .endResponse])

/-! ## SSE frontend (`SSEInputStrategy`)

`handleConnection` writes the SSE headers, stores the session, writes the
`endpoint` event, lets the output strategy bind the upstream, and
schedules the 30-second heartbeat; if the upstream binding rejects, it
writes an `error` event and ends the stream.  The message POST route
looks the session up, answers `404` on a miss, and otherwise hands the
body to the output strategy and answers `202` whether or not that
hand-off rejects. -/

/-- Externally visible actions of an SSE frontend connection. -/
inductive FrontendSseEvent : Type where
  | writeHead (status : Nat) (headers : List (String × String))
  | insertSession (sessionId : String)
  | write (s : String)
  | writeSseError (payload : Json)
  | connectUpstream
  | scheduleHeartbeat (intervalMs : Nat)
  | endResponse

/-- Headers set by `SSEInputStrategy.handleConnection`. -/
def sseHeaders : List (String × String) :=
  [("Content-Type", "text/event-stream"), ("Cache-Control", "no-cache"),
   ("Connection", "keep-alive"), ("X-Accel-Buffering", "no")]

/-- The initial SSE record: `event: endpoint\ndata: messages/<id>\n\n`. -/
def endpointEventText (sessionId : String) : String :=
  "event: endpoint\ndata: messages/" ++ sessionId ++ "\n\n"

/-- Does an event write bytes into the SSE response stream? -/
def isStreamWrite : FrontendSseEvent → Bool
  | .write _ => true
  | .writeSseError _ => true
  | _ => false

/-- `SSEInputStrategy.handleConnection`, as the list of actions it
performs, in program order; `connectFailure` is `none` when the output
strategy's `handleConnection` resolves and otherwise carries the
rejection's message. -/
def sseHandleConnection (nowMs : Nat) (connectFailure : Option (Option String)) :
    List FrontendSseEvent :=
  let sessionId := mintSseSessionId nowMs
  .writeHead 200 sseHeaders ::
  .insertSession sessionId ::
  .write (endpointEventText sessionId) ::
  .connectUpstream ::
  (match connectFailure with
   | none => [.scheduleHeartbeat 30000]
   | some m =>
     [.writeSseError (.obj [("error", .str (jsOr m "Failed to setup connection"))]),
      .endResponse])

/-- A stored SSE session (the attributes the claims inspect). -/
structure SessionRec : Type where
  sessionId : String
deriving DecidableEq

/-- An HTTP reply of the message POST route: status code and optional
JSON body (`none` is an empty body). -/
structure HttpReply : Type where
  status : Nat
  body : Option Json

/-- The `POST /messages/:sessionId` route of
`SSEInputStrategy.setupRoutes`: look the session up; on a miss reply
`404 {"error":"Session not found"}`; on a hit hand the body to the output
strategy and reply `202` with an empty body whether or not the hand-off
threw.  Yields the reply, the body handed to the bridge (`none` when
nothing was forwarded), and the session table afterwards. -/
def ssePostMessages (sessions : List (String × SessionRec)) (sessionId : String)
    (body : Json) (threw : Bool) :
    HttpReply × Option Json × List (String × SessionRec) :=
  match assocLookup sessionId sessions with
  | none => (⟨404, some (.obj [("error", .str "Session not found")])⟩, none, sessions)
  | some _ =>
    if threw then (⟨202, none⟩, some body, sessions)
    else (⟨202, none⟩, some body, sessions)

/-! ## Properties of the chunk decoder -/

/-- One unfolding step of `splitLines` on a cons cell. -/
theorem splitLines_cons (c : Char) (rest : List Char) :
    splitLines (c :: rest) =
      if c = '\n' then [] :: splitLines rest
      else
        match splitLines rest with
        | [] => [[c]]
        | l :: ls => (c :: l) :: ls := rfl

/-- Splitting always yields at least one segment. -/
theorem splitLines_ne_nil (l : List Char) : splitLines l ≠ [] := by
  cases l with
  | nil => simp [splitLines]
  | cons c rest =>
    rw [splitLines_cons]
    split
    · simp
    · split <;> simp

/-- Text ending in a newline splits into at least two segments. -/
theorem two_le_length_splitLines (a : List Char) (h : endsWithNewline a = true) :
    2 ≤ (splitLines a).length := by
  induction a with
  | nil => simp [endsWithNewline] at h
  | cons c rest ih =>
    cases rest with
    | nil =>
      have hc : c = '\n' := by simpa [endsWithNewline] using h
      subst hc
      simp [splitLines]
    | cons c2 rest2 =>
      have h' : endsWithNewline (c2 :: rest2) = true := by
        simpa [endsWithNewline] using h
      have ih' := ih h'
      by_cases hc : c = '\n'
      · subst hc
        rw [splitLines_cons, if_pos rfl]
        have h1 : splitLines (c2 :: rest2) ≠ [] := splitLines_ne_nil _
        have : 1 ≤ (splitLines (c2 :: rest2)).length := by
          cases hsp : splitLines (c2 :: rest2) with
          | nil => exact absurd hsp h1
          | cons x xs => simp
        simpa using this
      · rw [splitLines_cons, if_neg hc]
        rcases hsp : splitLines (c2 :: rest2) with _ | ⟨l, ls⟩
        · exact absurd hsp (splitLines_ne_nil _)
        · rw [hsp] at ih'
          simpa using ih'

/-- The final segment of text ending in a newline is empty. -/
theorem splitLines_getLast_eq (a : List Char) (h : endsWithNewline a = true) :
    (splitLines a).getLast? = some [] := by
  induction a with
  | nil => simp [endsWithNewline] at h
  | cons c rest ih =>
    cases rest with
    | nil =>
      have hc : c = '\n' := by simpa [endsWithNewline] using h
      subst hc
      simp [splitLines]
    | cons c2 rest2 =>
      have h' : endsWithNewline (c2 :: rest2) = true := by
        simpa [endsWithNewline] using h
      have ih' := ih h'
      by_cases hc : c = '\n'
      · subst hc
        rw [splitLines_cons, if_pos rfl]
        rcases hsp : splitLines (c2 :: rest2) with _ | ⟨l, ls⟩
        · exact absurd hsp (splitLines_ne_nil _)
        · rw [hsp] at ih'
          rw [List.getLast?_cons_cons]
          exact ih'
      · rw [splitLines_cons, if_neg hc]
        rcases hsp : splitLines (c2 :: rest2) with _ | ⟨l, ls⟩
        · exact absurd hsp (splitLines_ne_nil _)
        rcases ls with _ | ⟨l2, ls2⟩
        · have hlen := two_le_length_splitLines _ h'
          rw [hsp] at hlen
          simp at hlen
        · rw [hsp] at ih'
          show ((c :: l) :: l2 :: ls2).getLast? = some []
          rw [List.getLast?_cons_cons]
          rw [List.getLast?_cons_cons] at ih'
          exact ih'

/-- Splitting distributes over concatenation at a newline boundary: the
trailing empty segment of the left text merges with the right text. -/
theorem splitLines_append (a b : List Char) (h : endsWithNewline a = true) :
    splitLines (a ++ b) = (splitLines a).dropLast ++ splitLines b := by
  induction a with
  | nil => simp [endsWithNewline] at h
  | cons c rest ih =>
    cases rest with
    | nil =>
      have hc : c = '\n' := by simpa [endsWithNewline] using h
      subst hc
      simp [splitLines]
    | cons c2 rest2 =>
      have h' : endsWithNewline (c2 :: rest2) = true := by
        simpa [endsWithNewline] using h
      have ih' := ih h'
      by_cases hc : c = '\n'
      · subst hc
        have hrhs : (splitLines ('\n' :: c2 :: rest2)).dropLast
            = [] :: (splitLines (c2 :: rest2)).dropLast := by
          rw [splitLines_cons, if_pos rfl,
            List.dropLast_cons_of_ne_nil (splitLines_ne_nil _)]
        rw [List.cons_append, splitLines_cons, if_pos rfl, ih', hrhs, List.cons_append]
      · rcases hsp : splitLines (c2 :: rest2) with _ | ⟨l, ls⟩
        · exact absurd hsp (splitLines_ne_nil _)
        rcases ls with _ | ⟨l2, ls2⟩
        · have hlen := two_le_length_splitLines _ h'
          rw [hsp] at hlen
          simp at hlen
        have hrhs : splitLines (c :: c2 :: rest2) = (c :: l) :: l2 :: ls2 := by
          rw [splitLines_cons, if_neg hc, hsp]
        have ih'' : splitLines (c2 :: rest2 ++ b)
            = l :: ((l2 :: ls2).dropLast ++ splitLines b) := by
          rw [ih', hsp]
          rfl
        have hrhs2 : (splitLines (c :: c2 :: rest2)).dropLast
            = (c :: l) :: (l2 :: ls2).dropLast := by
          rw [hrhs]
          rfl
        rw [List.cons_append, splitLines_cons, if_neg hc, ih'', hrhs2, List.cons_append]

/-- Decoding distributes over concatenation at a record boundary: when
the left text ends with the newline that closes a record, decoding the
two parts separately recovers exactly the frames of the whole. -/
theorem decodeChunk_append (a b : List Char) (h : endsWithNewline a = true) :
    decodeChunk (a ++ b) = decodeChunk a ++ decodeChunk b := by
  unfold decodeChunk
  rw [splitLines_append a b h, List.filter_append, List.filterMap_append]
  congr 1
  have hne := splitLines_ne_nil a
  have hlast := splitLines_getLast_eq a h
  have hdecomp : splitLines a = (splitLines a).dropLast ++ [[]] := by
    conv_lhs => rw [← List.dropLast_append_getLast hne]
    have hg : (splitLines a).getLast hne = [] := by
      have := List.getLast?_eq_getLast (splitLines a) hne
      rw [this] at hlast
      exact Option.some_injective _ hlast
    rw [hg]
  conv_rhs => rw [hdecomp]
  rw [List.filter_append, List.filterMap_append]
  have : List.filter jsLineKept [([] : List Char)] = [] := by
    simp [jsLineKept]
  rw [this]
  simp

/-- When every chunk boundary falls right after a record-closing newline,
per-chunk decoding recovers exactly the frames of the whole stream. -/
theorem decodeChunks_eq_of_aligned (cs : List (List Char))
    (h : ∀ c ∈ cs.dropLast, endsWithNewline c = true) :
    decodeChunks cs = decodeChunk cs.flatten := by
  induction cs with
  | nil => simp [decodeChunks, decodeChunk, splitLines, jsLineKept]
  | cons c cs ih =>
    cases cs with
    | nil => simp [decodeChunks, List.flatMap]
    | cons c2 cs2 =>
      have hc : endsWithNewline c = true := by
        apply h
        simp [List.dropLast]
      have ih' : decodeChunks (c2 :: cs2) = decodeChunk (c2 :: cs2).flatten := by
        apply ih
        intro x hx
        apply h
        simp [List.dropLast] at hx ⊢
        exact Or.inr hx
      calc decodeChunks (c :: c2 :: cs2)
          = decodeChunk c ++ decodeChunks (c2 :: cs2) := by
            simp [decodeChunks]
        _ = decodeChunk c ++ decodeChunk (c2 :: cs2).flatten := by rw [ih']
        _ = decodeChunk (c ++ (c2 :: cs2).flatten) := (decodeChunk_append _ _ hc).symm
        _ = decodeChunk (c :: c2 :: cs2).flatten := by
            simp [List.flatten_cons]

/-! ## Properties of the session-id rendering -/

/-- The number denoted by a big-endian list of decimal digit characters. -/
def digitsVal (l : List Char) : Nat :=
  l.foldl (fun a c => 10 * a + (c.toNat - 48)) 0

theorem digitsVal_append_digit (l : List Char) (c : Char) :
    digitsVal (l ++ [c]) = 10 * digitsVal l + (c.toNat - 48) := by
  simp [digitsVal, List.foldl_append]

theorem digitChar_toNat (d : Nat) (h : d < 10) : (digitChar d).toNat = 48 + d := by
  interval_cases d <;> rfl

theorem natToStringAux_val (fuel n : Nat) (h : n ≤ fuel) :
    digitsVal (natToStringAux fuel n) = n := by
  induction fuel generalizing n with
  | zero =>
    interval_cases n
    rfl
  | succ fuel ih =>
    by_cases hn : n = 0
    · subst hn
      simp [natToStringAux, digitsVal]
    · rw [natToStringAux, if_neg hn, digitsVal_append_digit,
        ih (n / 10) (by omega), digitChar_toNat _ (by omega)]
      omega

/-- The decimal rendering can be read back: the timestamp is recoverable
from the session id. -/
theorem digitsVal_natToString (n : Nat) : digitsVal (natToString n).data = n := by
  by_cases h : n = 0
  · subst h
    rfl
  · rw [natToString, if_neg h]
    exact natToStringAux_val (n + 1) n (by omega)

/-- Distinct numbers render to distinct decimal strings. -/
theorem natToString_injective : Function.Injective natToString := by
  intro a b hab
  have := congrArg (fun s => digitsVal s.data) hab
  simpa [digitsVal_natToString] using this

/-! ## Frame inspection helpers -/

/-- The `error.code` field of a frame, when present. -/
def errCodeOf (f : Json) : Option Json :=
  (f.lookup "error").bind (fun e => e.lookup "code")

/-- The `error.data` field of a frame, when present. -/
def errDataOf (f : Json) : Option Json :=
  (f.lookup "error").bind (fun e => e.lookup "data")

/-- The frames delivered to the frontend by the streamable-HTTP output
strategy (its `sendResponse` calls), in order. -/
def httpOutReplies (evs : List UpstreamHttpEvent) : List Json :=
  evs.filterMap (fun e =>
    match e with
    | .reply f => some f
    | _ => none)

/-- Does the event write an HTTP status line? -/
def isWriteHeadEvent : FrontendHttpEvent → Bool
  | .writeHead _ _ => true
  | _ => false

/-- The end-of-stream condition the specification states for the
streamable-HTTP frontend, written from the spec's words: the written
frame (response or error) carries exactly the originating request's
`id`. -/
def specEndCondition (requestId : Json) (frame : Json) : Prop :=
  frame.lookup "id" = some requestId

/-! ## Claim C1 -/

/-- Claim C1, counterexample.  The NDJSON record
`{"jsonrpc":"2.0","id":1}\n` arriving split into the two chunks
`{"jsonrpc"` and `:"2.0","id":1}\n` decodes to no frame at all — each
fragment fails `JSON.parse` on its own and is skipped — while the same
bytes in one chunk decode to exactly one frame.  There is no carry buffer:
a chunk boundary inside a record loses the frame, so decoding is not
independent of the chunking. -/
theorem ndjson_chunk_split_loses_frame :
    decodeChunks [("\x7b\"jsonrpc\"").data, (":\"2.0\",\"id\":1\x7d\n").data] = []
    ∧ decodeChunk (("\x7b\"jsonrpc\"").data ++ (":\"2.0\",\"id\":1\x7d\n").data)
        = [.obj [("jsonrpc", .str "2.0"), ("id", .num 1)]]
    ∧ decodeChunks [("\x7b\"jsonrpc\"").data, (":\"2.0\",\"id\":1\x7d\n").data]
        ≠ decodeChunk (("\x7b\"jsonrpc\"").data ++ (":\"2.0\",\"id\":1\x7d\n").data) := by
  refine ⟨rfl, rfl, fun hcontra => ?_⟩
  have h1 : decodeChunks [("\x7b\"jsonrpc\"").data, (":\"2.0\",\"id\":1\x7d\n").data]
      = [] := rfl
  have h2 : decodeChunk (("\x7b\"jsonrpc\"").data ++ (":\"2.0\",\"id\":1\x7d\n").data)
      = [.obj [("jsonrpc", .str "2.0"), ("id", .num 1)]] := rfl
  rw [h1, h2] at hcontra
  exact List.noConfusion hcontra

/-- Claim C1 (amended).  The decoder keeps no carry buffer; each chunk is
split and parsed on its own.  Decoding therefore yields the same frames
as the unchunked stream exactly on the chunkings whose boundaries fall
right after a record's closing newline; a record whose bytes straddle a
chunk boundary is dropped (its fragments fail to parse), as the
counterexample shows. -/
theorem ndjson_decode_correct_iff_chunks_aligned (cs : List (List Char))
    (h : ∀ c ∈ cs.dropLast, endsWithNewline c = true) :
    decodeChunks cs = decodeChunk cs.flatten :=
  decodeChunks_eq_of_aligned cs h

/-- Witness for the amended C1: two whole-record chunks decode to the
frames of the concatenated stream. -/
theorem ndjson_decode_correct_iff_chunks_aligned_witness :
    (∀ c ∈ [("\x7b\"id\":1\x7d\n").data, ("\x7b\"id\":2\x7d\n").data].dropLast,
        endsWithNewline c = true)
    ∧ decodeChunks [("\x7b\"id\":1\x7d\n").data, ("\x7b\"id\":2\x7d\n").data]
        = decodeChunk ([("\x7b\"id\":1\x7d\n").data, ("\x7b\"id\":2\x7d\n").data].flatten) :=
  ⟨by decide, ndjson_decode_correct_iff_chunks_aligned _ (by decide)⟩

/-! ## Claim C2 -/

/-- Claim C2, counterexample.  `sendResponse` ends the chunked response
whenever the written frame has a defined `id`, without comparing it to
the originating request's `id`.  For a session whose originating request
has `id` 1, writing a frame with `id` 2 ends the response even though the
spec's end condition does not hold for it. -/
theorem streamable_response_ends_on_foreign_id :
    FrontendHttpEvent.endResponse ∈ streamableSendResponse
      (.obj [("jsonrpc", .str "2.0"), ("id", .num 2), ("result", .obj [])])
    ∧ ¬ specEndCondition (.num 1)
        (.obj [("jsonrpc", .str "2.0"), ("id", .num 2), ("result", .obj [])]) := by
  constructor
  · simp [streamableSendResponse, Json.lookup, assocLookup]
  · intro h
    simp [specEndCondition, Json.lookup, assocLookup] at h

/-- Claim C2 (amended).  The streamable-HTTP frontend ends its response
exactly when the written frame carries a defined `id` — any `id`, not
only the originating request's; frames without an `id` (notifications)
leave the response open. -/
theorem streamable_response_end_iff_id_defined (frame : Json) :
    FrontendHttpEvent.endResponse ∈ streamableSendResponse frame
      ↔ (frame.lookup "id").isSome := by
  unfold streamableSendResponse
  by_cases h : (frame.lookup "id").isSome
  · simp [h]
  · simp [h]

/-! ## Claim C3 -/

/-- A frontend frame carrying a field outside
`{jsonrpc, method, params, id}`. -/
def sampleFrameWithUnknownField : Json :=
  .obj [("jsonrpc", .str "2.0"), ("method", .str "ping"), ("id", .num 1),
        ("trace", .str "t1")]

/-- Claim C3, counterexample.  Forwarding destructures
`{ jsonrpc, method, params, id }` and rebuilds the frame, so the unknown
field `trace` of the received frame is absent from the forwarded frame:
forwarding is not verbatim. -/
theorem forwarded_frame_not_verbatim :
    (forwardedFrame sampleFrameWithUnknownField).lookup "trace" = none
    ∧ sampleFrameWithUnknownField.lookup "trace" = some (.str "t1")
    ∧ forwardedFrame sampleFrameWithUnknownField ≠ sampleFrameWithUnknownField := by
  refine ⟨rfl, rfl, fun h => ?_⟩
  have h2 := congrArg (fun j => Json.lookup j "trace") h
  have h3 : (forwardedFrame sampleFrameWithUnknownField).lookup "trace" = none := rfl
  have h4 : sampleFrameWithUnknownField.lookup "trace" = some (.str "t1") := rfl
  simp [h3, h4] at h2

/-- Claim C3 (amended).  The frame forwarded upstream consists of exactly
the envelope: `jsonrpc` forced to `"2.0"`, and the `method`, `params` and
`id` fields copied from the received frame; every other field of the
received frame is dropped. -/
theorem forwarded_frame_envelope_only (req : Json) :
    (forwardedFrame req).lookup "jsonrpc" = some (.str "2.0")
    ∧ (forwardedFrame req).lookup "method" = req.lookup "method"
    ∧ (forwardedFrame req).lookup "params" = req.lookup "params"
    ∧ (forwardedFrame req).lookup "id" = req.lookup "id"
    ∧ ∀ k, k ≠ "jsonrpc" → k ≠ "method" → k ≠ "params" → k ≠ "id" →
        (forwardedFrame req).lookup k = none := by
  unfold forwardedFrame buildForwardRequest
  rcases hm : req.lookup "method" with _ | m <;>
    rcases hp : req.lookup "params" with _ | p <;>
      rcases hi : req.lookup "id" with _ | i <;>
        refine ⟨by simp [optField, Json.lookup, assocLookup],
          by simp [optField, Json.lookup, assocLookup],
          by simp [optField, Json.lookup, assocLookup],
          by simp [optField, Json.lookup, assocLookup],
          fun k h1 h2 h3 h4 =>
            by simp [optField, Json.lookup, assocLookup, h1, h2, h3, h4]⟩

/-- Claim C3 (amended), witness instantiating the quantified statement at
a concrete frame and a concrete non-envelope key. -/
theorem forwarded_frame_envelope_only_witness :
    (forwardedFrame (.obj [("method", .str "ping"), ("id", .num 1)])).lookup "method"
        = (Json.obj [("method", .str "ping"), ("id", .num 1)]).lookup "method"
    ∧ (forwardedFrame (.obj [("method", .str "ping"), ("id", .num 1)])).lookup "jsonrpc"
        = some (.str "2.0")
    ∧ (forwardedFrame (.obj [("method", .str "ping"), ("id", .num 1)])).lookup "trace"
        = none :=
  ⟨(forwarded_frame_envelope_only (.obj [("method", .str "ping"), ("id", .num 1)])).2.1,
   (forwarded_frame_envelope_only (.obj [("method", .str "ping"), ("id", .num 1)])).1,
   (forwarded_frame_envelope_only (.obj [("method", .str "ping"), ("id", .num 1)])).2.2.2.2
     "trace" (by decide) (by decide) (by decide) (by decide)⟩

/-! ## Claim C4 -/

/-- A frontend frame with an `id` but no `method`. -/
def frameWithoutMethod : Json := .obj [("id", .num 7)]

/-- Claim C4, counterexample.  A frame lacking `method` is not dropped
and no `-32600 Invalid Request` reply exists anywhere in the code: the
SSE output strategy still issues `client.request` with an undefined
method and answers with the upstream result, and the streamable output
strategy still posts the rebuilt frame (whose `method` key is simply
absent) upstream. -/
theorem frame_without_method_still_forwarded :
    sseOutHandleMessage frameWithoutMethod (.ok (.obj []))
      = [.request none none,
         .reply (.obj [("jsonrpc", .str "2.0"), ("id", .num 7), ("result", .obj [])])]
    ∧ streamableOutHandleMessage frameWithoutMethod (.stream [] none)
      = [.post (.obj [("jsonrpc", .str "2.0"), ("id", .num 7)])] := by
  constructor
  · rfl
  · rfl

/-- Claim C4 (amended).  Every frontend frame is forwarded upstream: with
a defined `id` as an SDK request, without one as a notification; the
replies the frontend can receive from this path are results or `-32603`
errors — the code never produces error code `-32600`. -/
theorem sse_out_forwards_every_frame (req : Json) (o : UpstreamCallOutcome) :
    (∀ i, req.lookup "id" = some i →
      (sseOutHandleMessage req o).head?
        = some (.request (req.lookup "method") (req.lookup "params")))
    ∧ (req.lookup "id" = none →
      (sseOutHandleMessage req o).head?
        = some (.notification (req.lookup "method") (req.lookup "params")))
    ∧ (∀ f, UpstreamSseEvent.reply f ∈ sseOutHandleMessage req o →
        errCodeOf f ≠ some (.num (-32600))) := by
  unfold sseOutHandleMessage
  rcases hi : req.lookup "id" with _ | i
  · refine ⟨fun i hi' => by simp at hi', fun _ => ?_, fun f hf => ?_⟩
    · cases o <;> rfl
    · cases o with
      | ok res => simp at hf
      | fail m st =>
        simp at hf
        subst hf
        simp [errCodeOf, errorFrame, optField, Json.lookup, assocLookup]
  · refine ⟨fun i' hi' => by cases o <;> rfl, fun h => by simp at h, fun f hf => ?_⟩
    cases o with
    | ok res =>
      simp at hf
      subst hf
      simp [errCodeOf, Json.lookup, assocLookup]
    | fail m st =>
      simp at hf
      subst hf
      simp [errCodeOf, errorFrame, optField, Json.lookup, assocLookup]

/-- Claim C4 (amended), witness: a notification (no `id`) is forwarded as
an SDK notification, and a request (with `id`) as an SDK request. -/
theorem sse_out_forwards_every_frame_witness :
    ((Json.obj [("method", .str "tick")]).lookup "id" = none
      ∧ (sseOutHandleMessage (.obj [("method", .str "tick")]) (.ok (.obj []))).head?
          = some (.notification (some (.str "tick")) none))
    ∧ ((Json.obj [("method", .str "ping"), ("id", .num 1)]).lookup "id" = some (.num 1)
      ∧ (sseOutHandleMessage (.obj [("method", .str "ping"), ("id", .num 1)])
            (.ok (.obj []))).head?
          = some (.request (some (.str "ping")) none)) :=
  ⟨⟨rfl,
    (sse_out_forwards_every_frame (.obj [("method", .str "tick")]) (.ok (.obj []))).2.1 rfl⟩,
   ⟨rfl,
    (sse_out_forwards_every_frame (.obj [("method", .str "ping"), ("id", .num 1)])
      (.ok (.obj []))).1 (.num 1) rfl⟩⟩

/-! ## Claim C5 -/

/-- Claim C5.  When the upstream POST rejects, or when the response
stream raises an `error` event, the frontend receives exactly one
synthetic error reply (on the stream-error path, after the frames already
decoded from the stream), and that reply carries the originating
request's `id`, error code `-32603`, and the upstream diagnostic (the
error's stack) in `error.data`. -/
theorem upstream_failure_one_error_reply (req i : Json) (m st : Option String)
    (chunks : List (List Char)) (h : req.lookup "id" = some i) :
    httpOutReplies (streamableOutHandleMessage req (.sendFailure m st))
      = [errorFrame (some i) (-32603) (jsOr m "Internal error") st]
    ∧ httpOutReplies (streamableOutHandleMessage req (.stream chunks (some (m, st))))
      = decodeChunks chunks ++ [errorFrame (some i) (-32603) (jsOr m "Internal error") st]
    ∧ (errorFrame (some i) (-32603) (jsOr m "Internal error") st).lookup "id" = some i
    ∧ errCodeOf (errorFrame (some i) (-32603) (jsOr m "Internal error") st)
        = some (.num (-32603))
    ∧ errDataOf (errorFrame (some i) (-32603) (jsOr m "Internal error") st)
        = st.map .str := by
  refine ⟨?_, ?_, ?_, ?_, ?_⟩
  · simp [streamableOutHandleMessage, httpOutReplies, h]
  · simp [streamableOutHandleMessage, httpOutReplies, h, List.filterMap_append,
      Function.comp_def, List.filterMap_some]
  · simp [errorFrame, optField, Json.lookup, assocLookup]
  · simp [errCodeOf, errorFrame, optField, Json.lookup, assocLookup]
  · cases st <;> simp [errDataOf, errorFrame, optField, Json.lookup, assocLookup]

/-- Claim C5, witness: a `ping` request with `id` 3 whose send fails with
`socket hang up` yields the single `-32603` error reply. -/
theorem upstream_failure_one_error_reply_witness :
    ((Json.obj [("jsonrpc", .str "2.0"), ("method", .str "ping"), ("id", .num 3)]).lookup "id"
        = some (.num 3))
    ∧ httpOutReplies (streamableOutHandleMessage
        (.obj [("jsonrpc", .str "2.0"), ("method", .str "ping"), ("id", .num 3)])
        (.sendFailure (some "socket hang up") (some "Error: socket hang up")))
      = [errorFrame (some (.num 3)) (-32603) "socket hang up" (some "Error: socket hang up")] := by
  constructor
  · rfl
  · have := (upstream_failure_one_error_reply
      (.obj [("jsonrpc", .str "2.0"), ("method", .str "ping"), ("id", .num 3)]) (.num 3)
      (some "socket hang up") (some "Error: socket hang up") [] rfl).1
    simpa [jsOr] using this

/-! ## Claim C6 -/

/-- Claim C6.  A POST to the SSE message endpoint whose session id is in
the table answers `202` with an empty body and hands the parsed body to
the bridge, whether or not the upstream hand-off threw; the session table
is unchanged. -/
theorem sse_post_hit_always_accepted (sessions : List (String × SessionRec))
    (sid : String) (body : Json) (threw : Bool) (s : SessionRec)
    (h : assocLookup sid sessions = some s) :
    ssePostMessages sessions sid body threw = (⟨202, none⟩, some body, sessions) := by
  unfold ssePostMessages
  rw [h]
  cases threw <;> rfl

/-- Claim C6, witness: a hit with a throwing upstream hand-off still
answers `202` with an empty body. -/
theorem sse_post_hit_always_accepted_witness :
    assocLookup "1700" [("1700", SessionRec.mk "1700")] = some (SessionRec.mk "1700")
    ∧ ssePostMessages [("1700", SessionRec.mk "1700")] "1700" (.obj []) true
      = (⟨202, none⟩, some (.obj []), [("1700", SessionRec.mk "1700")]) :=
  ⟨rfl, sse_post_hit_always_accepted _ _ _ _ _ rfl⟩

/-! ## Claim C7 -/

/-- Claim C7.  A POST to the SSE message endpoint whose session id is not
in the table answers `404` with body `{"error":"Session not found"}`,
hands nothing to the bridge, and leaves the session table unchanged. -/
theorem sse_post_miss_not_found (sessions : List (String × SessionRec))
    (sid : String) (body : Json) (threw : Bool)
    (h : assocLookup sid sessions = none) :
    ssePostMessages sessions sid body threw
      = (⟨404, some (.obj [("error", .str "Session not found")])⟩, none, sessions) := by
  unfold ssePostMessages
  rw [h]

/-- Claim C7, witness at an unknown session id. -/
theorem sse_post_miss_not_found_witness :
    assocLookup "does-not-exist" [("1700", SessionRec.mk "1700")] = none
    ∧ ssePostMessages [("1700", SessionRec.mk "1700")] "does-not-exist" (.obj []) false
      = (⟨404, some (.obj [("error", .str "Session not found")])⟩, none,
         [("1700", SessionRec.mk "1700")]) :=
  ⟨rfl, sse_post_miss_not_found _ _ _ _ rfl⟩

/-! ## Claim C8 -/

/-- Claim C8.  On every SSE frontend connection — whether the upstream
binding later succeeds or fails — the first bytes written into the event
stream are the record `event: endpoint\ndata: messages/<session_id>\n\n`
for the session just minted; every `message` event, error event or
heartbeat comes later. -/
theorem sse_first_write_is_endpoint_event (nowMs : Nat)
    (connectFailure : Option (Option String)) :
    ((sseHandleConnection nowMs connectFailure).filter isStreamWrite).head?
      = some (.write (endpointEventText (mintSseSessionId nowMs))) := by
  cases connectFailure <;>
    simp [sseHandleConnection, isStreamWrite, List.filter]

/-! ## Claim C9 -/

/-- Claim C9, counterexample.  The SSE frontend mints
`Date.now().toString()`: two connections admitted in the same millisecond
receive the same session id, so the minted ids of a two-connection trace
are not pairwise distinct. -/
theorem sse_session_ids_collide_within_millisecond :
    mintSseSessionId 1700000000000 = mintSseSessionId 1700000000000
    ∧ ¬ ([1700000000000, 1700000000000].map mintSseSessionId).Nodup :=
  ⟨rfl, by simp [List.Nodup]⟩

/-- Claim C9 (amended).  Session ids are unique only as far as their
inputs are: two SSE session ids coincide exactly when the creation
timestamps coincide (the id is the bare millisecond timestamp), and two
streamable-HTTP ids minted in the same millisecond coincide exactly when
their random suffixes coincide. -/
theorem session_ids_distinct_iff_inputs_distinct (t1 t2 : Nat) (rand1 rand2 : String) :
    (mintSseSessionId t1 = mintSseSessionId t2 ↔ t1 = t2)
    ∧ (mintHttpSessionId t1 rand1 = mintHttpSessionId t1 rand2 ↔ rand1 = rand2) := by
  constructor
  · exact ⟨fun h => natToString_injective h, fun h => by rw [h]⟩
  · constructor
    · intro h
      have hd := congrArg String.data h
      simp [mintHttpSessionId, String.data_append] at hd
      exact String.ext hd
    · intro h
      rw [h]

/-! ## Claim C10 -/

/-- Claim C10.  The streamable-HTTP POST route writes status `200` with
the streaming headers before the body is handed upstream, and writes no
other status afterwards; when the upstream hand-off rejects, the failure
reaches the client only as an NDJSON-encoded `-32603` error frame inside
the `200` body, after which the body is ended. -/
theorem streamable_post_status_precedes_upstream (body : Json)
    (messageFailure : Option (Option String × Option String)) :
    (streamablePostRoute body messageFailure).head?
      = some (.writeHead 200 streamableHeaders)
    ∧ (streamablePostRoute body messageFailure)[1]? = some (.handleMessage body)
    ∧ (streamablePostRoute body messageFailure).filter isWriteHeadEvent
      = [.writeHead 200 streamableHeaders]
    ∧ (∀ m st, streamablePostRoute body (some (m, st))
        = [.writeHead 200 streamableHeaders, .handleMessage body,
           .writeFrameLine (errorFrame (body.lookup "id") (-32603)
             (jsOr m "Internal error") st),
           .endResponse]) := by
  refine ⟨?_, ?_, ?_, fun m st => rfl⟩
  · rcases messageFailure with _ | ⟨m, st⟩ <;> rfl
  · rcases messageFailure with _ | ⟨m, st⟩ <;> rfl
  · rcases messageFailure with _ | ⟨m, st⟩ <;>
      simp [streamablePostRoute, isWriteHeadEvent, List.filter]
